import Mathlib

/-!
Verification development for the arena-dl Content Synchronization Engine
(`src/index.js`).  The engine is shallowly embedded: the mutable
`ArenaDownloader` instance state becomes an explicit `DLState` value threaded
through pure transition functions, the local filesystem becomes an association
list from paths to file sizes, and the network becomes oracles (one for the
channel summary, one per page, one per image URL).  Side-effect observations
that the specification talks about — which image URLs were actually fetched,
which page requests and inter-page delays were issued and in which order —
are recorded in explicit logs/traces so that temporal claims become claims
about those lists.
-/

namespace ArenaDl

/-! ### Data model (spec section 3, `src/index.js`) -/

/-- The `image` substructure of a remote block: `content_type` and
`original.url` are the only fields the engine reads
(`src/index.js` lines 150-154 and 183). -/
structure Image where
  content_type : Option String
  originalUrl : String
deriving Repr, DecidableEq

/-- A remote item of the channel listing.  `title` is `none` when absent;
an empty string title is distinct from an absent one because JavaScript
truthiness treats both as falsy (see `titleIsTruthy`). -/
structure Block where
  id : Nat
  title : Option String
  image : Option Image
deriving Repr, DecidableEq

/-- JavaScript truthiness of `block.title` as used in
`block.title ? parameterize(block.title) : block.id.toString()`:
`undefined`/`null`/`""` are falsy. -/
def titleIsTruthy : Option String → Bool
  | none => false
  | some t => !(t == "")

/-- Collapse every run of consecutive `-` characters to a single `-`. -/
def collapseDashes (l : List Char) : List Char :=
  l.foldr (fun c acc => if c == '-' && acc.headD ' ' == '-' then acc else c :: acc) []

/-- Drop leading and trailing `-` characters. -/
def trimDashes (l : List Char) : List Char :=
  ((l.dropWhile (· == '-')).reverse.dropWhile (· == '-')).reverse

/-- Models the external `parameterize` dependency as the engine relies on it:
lower-case the string and turn every run of non-alphanumeric characters into
a single `-` separator, with no leading or trailing separator. -/
def parameterize (s : String) : String :=
  let mapped := s.data.map (fun c =>
    let lc := c.toLower
    if lc.isAlphanum then lc else '-')
  String.mk (trimDashes (collapseDashes mapped))

/-- Models the external `mime` dependency's `getExtension` on image content
types; unrecognised (or absent) content types resolve to `none`. -/
def mimeGetExtension : Option String → Option String
  | some "image/png" => some "png"
  | some "image/jpeg" => some "jpeg"
  | some "image/gif" => some "gif"
  | some "image/webp" => some "webp"
  | some "image/svg+xml" => some "svg"
  | _ => none

/-- Node's `path.join` on the well-formed inputs the engine uses. -/
def pathJoin (a b : String) : String := a ++ "/" ++ b

/-- `getFilename(block)` from `src/index.js` lines 150-154:
`{id}_{parameterize(title) | id}.{ext}` with the extension resolved from the
image content type and defaulting to `jpg`.  The source only ever calls this
after checking `block.image`, so the `none` branch of the extension lookup is
unreachable at call sites. -/
def getFilename (block : Block) : String :=
  let title := match block.title with
    | some t => if t == "" then toString block.id else parameterize t
    | none => toString block.id
  let ext := match block.image with
    | some img => (mimeGetExtension img.content_type).getD "jpg"
    | none => "jpg"
  toString block.id ++ "_" ++ title ++ "." ++ ext

/-- The absolute local target path of a block's download:
`path.join(channelDir, getFilename(block))`. -/
def blockPath (channelDir : String) (block : Block) : String :=
  pathJoin channelDir (getFilename block)

/-! ### Local filesystem model

An association list from absolute paths to file sizes in bytes; a write
prepends, a lookup takes the first (most recent) entry. -/

/-- The local filesystem: the image files present, with their byte sizes. -/
abbrev FS := List (String × Nat)

/-- Size of the file at `p`, or `none` when no file exists there. -/
def fsFind (fs : FS) (p : String) : Option Nat :=
  match fs.find? (fun e => e.1 == p) with
  | some e => some e.2
  | none => none

/-- Overwriting write of a file of size `n` at path `p`. -/
def fsWrite (fs : FS) (p : String) (n : Nat) : FS := (p, n) :: fs

/-- A non-empty file exists at `p` (the skip-existing test:
`fs.existsSync(filepath) && statSync(filepath).size > 0`). -/
def fsNonEmptyAt (fs : FS) (p : String) : Bool :=
  match fsFind fs p with
  | some n => decide (0 < n)
  | none => false

/-! ### Network model -/

/-- Outcome of one image fetch (`axios.get(block.image.original.url, ...)`):
either the request throws (network error, timeout, non-2xx status) with an
error message, or it resolves with a body of `bodyLen` bytes (a zero-length
body is a resolved response that the engine then rejects itself). -/
inductive FetchOutcome where
  | success (bodyLen : Nat)
  | failure (msg : String)
deriving Repr, DecidableEq

/-- The image-fetching network as an oracle from URL to outcome. -/
abbrev Net := String → FetchOutcome

/-- The paginated listing endpoint as an oracle from page number to the
blocks that page yields; `fetchPage` maps request errors to `[]`, so a failed
page is an oracle returning the empty list. -/
abbrev Pages := Nat → List Block

/-- Channel summary (`GET /channels/{slug}/thumb`): `title` and `length` (the
reported total item count). -/
structure ChannelInfo where
  title : String
  length : Nat
deriving Repr, DecidableEq

/-! ### Engine state -/

/-- The five statistics counters of `this.stats`. -/
structure Stats where
  total : Nat
  downloaded : Nat
  skipped : Nat
  failed : Nat
  noImage : Nat
deriving Repr, DecidableEq

/-- One entry of `this.failedBlocks`, pushed by `logFailure`. -/
structure FailureRecord where
  blockId : Nat
  title : Option String
  error : String
deriving Repr, DecidableEq

/-- The mutable instance state of `ArenaDownloader` relevant to the engine,
plus two pure observations: `fsys` is the local filesystem of image files and
`fetchLog` records, in order, every image URL for which an `axios.get` was
actually issued by `downloadBlock`. -/
structure DLState where
  stats : Stats
  failedBlocks : List FailureRecord
  downloadedBlocks : List Block
  fsys : FS
  fetchLog : List String
deriving Repr, DecidableEq

/-- The counters as initialised by the `ArenaDownloader` constructor. -/
def initStats : Stats := ⟨0, 0, 0, 0, 0⟩

/-- The instance state as built by the `ArenaDownloader` constructor, over a
pre-existing local filesystem `fs`. -/
def initState (fs : FS) : DLState :=
  { stats := initStats, failedBlocks := [], downloadedBlocks := [], fsys := fs,
    fetchLog := [] }

/-- The engine options assembled by the CLI layer:
`skipExisting = !force`, `dryRun`, and the optional export format. -/
structure Options where
  skipExisting : Bool
  dryRun : Bool
  exportFormat : Option String
deriving Repr, DecidableEq

/-- The value `downloadBlock` resolves with. -/
inductive BlockResult where
  | okSkipped (reason : String)
  | okDownloaded
  | failed (error : String)
deriving Repr, DecidableEq

/-- Sum of the four per-job counters (everything except `total`). -/
def jobSum (st : Stats) : Nat := st.downloaded + st.skipped + st.failed + st.noImage

/-! ### downloadBlock (`src/index.js` lines 156-212) -/

/-- One job execution.  Faithful branch order: the no-image guard, then the
skip-existing test (exists and non-empty), then the dry-run no-op, then the
fetch with its three outcomes (thrown error, empty body, non-empty body). -/
def downloadBlock (opts : Options) (net : Net) (channelDir : String)
    (block : Block) (s : DLState) : DLState × BlockResult :=
  match block.image with
  | none =>
    ({ s with stats := { s.stats with noImage := s.stats.noImage + 1 } },
     .okSkipped "no-image")
  | some img =>
    let filepath := blockPath channelDir block
    if opts.skipExisting && fsNonEmptyAt s.fsys filepath then
      ({ s with stats := { s.stats with skipped := s.stats.skipped + 1 } },
       .okSkipped "exists")
    else if opts.dryRun then
      ({ s with
          stats := { s.stats with downloaded := s.stats.downloaded + 1 },
          downloadedBlocks := s.downloadedBlocks ++ [block] },
       .okDownloaded)
    else
      match net img.originalUrl with
      | .failure msg =>
        ({ s with
            stats := { s.stats with failed := s.stats.failed + 1 },
            failedBlocks := s.failedBlocks ++ [⟨block.id, block.title, msg⟩],
            fetchLog := s.fetchLog ++ [img.originalUrl] },
         .failed msg)
      | .success 0 =>
        ({ s with
            stats := { s.stats with failed := s.stats.failed + 1 },
            failedBlocks :=
              s.failedBlocks ++ [⟨block.id, block.title, "Received empty response"⟩],
            fetchLog := s.fetchLog ++ [img.originalUrl] },
         .failed "Received empty response")
      | .success (n + 1) =>
        ({ s with
            stats := { s.stats with downloaded := s.stats.downloaded + 1 },
            downloadedBlocks := s.downloadedBlocks ++ [block],
            fsys := fsWrite s.fsys filepath (n + 1),
            fetchLog := s.fetchLog ++ [img.originalUrl] },
         .okDownloaded)

/-! ### downloadInChunks (`src/index.js` lines 214-239)

The loop `for (let i = 0; i < blocks.length; i += CONCURRENT_DOWNLOADS)`
slices the job list into chunks of at most `CONCURRENT_DOWNLOADS` jobs.  Each
chunk is launched together and `await Promise.all(promises)` is the join
point: the next chunk starts only after every job of the current chunk has
settled.  Under the single-threaded cooperative scheduler, the aggregate
state effect of a chunk is the composition of its jobs' effects, which this
embedding realises as a left fold. -/

/-- Fixed page size of the listing endpoint. -/
def PER_PAGE : Nat := 100

/-- The bounded concurrency limit (chunk size). -/
def CONCURRENT_DOWNLOADS : Nat := 5

/-- Structural-fuel slicing: `chunksOfAux k fuel l` slices `l` into pieces of
`k` as long as fuel and list remain. -/
def chunksOfAux (k : Nat) : Nat → List α → List (List α)
  | 0, _ => []
  | _, [] => []
  | fuel + 1, l => l.take k :: chunksOfAux k fuel (l.drop k)

/-- Partition `l` into consecutive chunks of size at most `k` (in order). -/
def chunksOf (k : Nat) (l : List α) : List (List α) :=
  chunksOfAux k l.length l

/-- Run a list of jobs in order against the engine state. -/
def runBlocks (opts : Options) (net : Net) (channelDir : String)
    (blocks : List Block) (s : DLState) : DLState :=
  blocks.foldl (fun st b => (downloadBlock opts net channelDir b st).1) s

/-- `downloadInChunks`: process the chunks strictly in sequence, each chunk
settling completely before the next one starts. -/
def downloadInChunks (opts : Options) (net : Net) (channelDir : String)
    (blocks : List Block) (s : DLState) : DLState :=
  (chunksOf CONCURRENT_DOWNLOADS blocks).foldl
    (fun st c => runBlocks opts net channelDir c st) s

/-! ### fetchAllBlocks (`src/index.js` lines 133-148) -/

/-- Observable events of the page-fetch loop, in temporal order: a request
for one page, or the fixed 100ms inter-page politeness delay. -/
inductive FetchEvent where
  | pageRequest (page : Nat)
  | interPageDelay
deriving Repr, DecidableEq

/-- The loop `for (let page = 1; page <= totalPages; page++)`, unrolled with
structural fuel (the number of iterations left).  Each iteration requests one
page, appends its blocks, and sleeps iff `page < totalPages`. -/
def fetchPagesAux (pages : Pages) (totalPages : Nat) :
    Nat → Nat → List Block × List FetchEvent
  | _, 0 => ([], [])
  | page, remaining + 1 =>
    let blocks := pages page
    let rest := fetchPagesAux pages totalPages (page + 1) remaining
    (blocks ++ rest.1,
     (FetchEvent.pageRequest page ::
        (if page < totalPages then [FetchEvent.interPageDelay] else [])) ++ rest.2)

/-- `fetchAllBlocks(totalBlocks)`: compute `totalPages = ceil(totalBlocks /
PER_PAGE)` and fetch pages `1..totalPages` strictly sequentially, returning
the concatenated blocks and the ordered event trace. -/
def fetchAllBlocks (pages : Pages) (totalBlocks : Nat) :
    List Block × List FetchEvent :=
  let totalPages := (totalBlocks + (PER_PAGE - 1)) / PER_PAGE
  fetchPagesAux pages totalPages 1 totalPages

/-! ### Failure log and export (`src/index.js` lines 65-106) -/

/-- One line of the failure log: `` `${b.blockId} - ${b.title}: ${b.error}` ``
(JavaScript renders an `undefined` title as the string `undefined`). -/
def failureLine (r : FailureRecord) : String :=
  toString r.blockId ++ " - " ++ (r.title.getD "undefined") ++ ": " ++ r.error

/-- Content of the failure log file: one line per record, newline-joined. -/
def failedLogContent (records : List FailureRecord) : String :=
  String.intercalate "\n" (records.map failureLine)

/-- One manifest entry of the export list (timestamp field omitted: wall
clock time is outside the model). -/
structure ManifestEntry where
  id : Nat
  title : Option String
  url : String
deriving Repr, DecidableEq

/-- The rows `exportList` serialises from `this.downloadedBlocks`.  Only
image-bearing blocks are ever pushed onto `downloadedBlocks`, so the `""`
default for a missing image is unreachable. -/
def exportEntries (blocks : List Block) : List ManifestEntry :=
  blocks.map fun b => ⟨b.id, b.title, (b.image.map Image.originalUrl).getD ""⟩

/-! ### download (`src/index.js` lines 241-294) -/

/-- Process exit status: `failure` models the `process.exit(1)` in the
catch-all of `download()`. -/
inductive ExitStatus where
  | success
  | failure
deriving Repr, DecidableEq

/-- Everything one `download()` invocation produces: the instance state it
leaves behind, the exit status, the failure-log file content written this run
(`none` when the log is not (re)written), the manifest entries written when an
export format was requested, and the page-fetch event trace. -/
structure RunOutcome where
  state : DLState
  exit : ExitStatus
  logWritten : Option String
  manifest : Option (List ManifestEntry)
  pageTrace : List FetchEvent
deriving Repr, DecidableEq

/-- One `download()` invocation.  When the channel summary cannot be fetched,
the catch-all fires before any page fetch or job: the process exits non-zero
with the state untouched.  Otherwise: `stats.total` is assigned the reported
item count, all pages are fetched, the listing is filtered to image-bearing
blocks, those are processed in chunks, the failure log is written iff
`stats.failed > 0`, and the export list is written iff a format was
requested. -/
def download (slug outputDir : String) (opts : Options)
    (chan : Except String ChannelInfo) (pages : Pages) (net : Net)
    (s : DLState) : RunOutcome :=
  match chan with
  | .error _ =>
    { state := s, exit := .failure, logWritten := none, manifest := none,
      pageTrace := [] }
  | .ok info =>
    let s1 : DLState := { s with stats := { s.stats with total := info.length } }
    let channelDir := pathJoin outputDir slug
    let fetched := fetchAllBlocks pages info.length
    let imageBlocks := fetched.1.filter (fun b => b.image.isSome)
    let s2 := downloadInChunks opts net channelDir imageBlocks s1
    { state := s2,
      exit := .success,
      logWritten :=
        if 0 < s2.stats.failed then some (failedLogContent s2.failedBlocks)
        else none,
      manifest :=
        match opts.exportFormat with
        | some _ => some (exportEntries s2.downloadedBlocks)
        | none => none,
      pageTrace := fetched.2 }

/-- The image-bearing blocks of the fetched listing:
`blocks.filter(b => b.image)` in `download()`. -/
def imageBlocks (pages : Pages) (n : Nat) : List Block :=
  (fetchAllBlocks pages n).1.filter (fun b => b.image.isSome)

/-- The engine state `download()` leaves behind on the successful
(channel-found) path: `total` assigned, then the image-bearing blocks
processed in chunks against the channel directory. -/
def runState (slug outputDir : String) (opts : Options) (info : ChannelInfo)
    (pages : Pages) (net : Net) (s : DLState) : DLState :=
  downloadInChunks opts net (pathJoin outputDir slug)
    (imageBlocks pages info.length)
    { s with stats := { s.stats with total := info.length } }

/-! ### Lemmas about slugification -/

theorem toLower_not_upper (c : Char) : (c.toLower).isUpper = false := by
  unfold Char.toLower
  by_cases h : c.toNat ≥ 65 ∧ c.toNat ≤ 90
  · rw [if_pos h]
    have hv : (c.toNat + 32).isValidChar := by left; omega
    rw [Char.isUpper]
    rw [Char.ofNat, dif_pos hv]
    unfold Char.ofNatAux
    simp only [Bool.and_eq_false_iff, decide_eq_false_iff_not, UInt32.le_def]
    right
    simp only [BitVec.le_def, BitVec.toNat_ofNatLt]
    have h90 : (UInt32.toBitVec 90).toNat = 90 := by decide
    rw [h90]
    omega
  · rw [if_neg h]
    rw [Char.isUpper]
    simp only [Bool.and_eq_false_iff, decide_eq_false_iff_not, UInt32.le_def]
    simp only [BitVec.le_def]
    have h65 : (UInt32.toBitVec 65).toNat = 65 := by decide
    have h90 : (UInt32.toBitVec 90).toNat = 90 := by decide
    rw [h65, h90]
    have hc : c.val.toBitVec.toNat = c.toNat := rfl
    rw [hc]
    omega

theorem collapseDashes_cons (c : Char) (t : List Char) :
    collapseDashes (c :: t) =
      if c == '-' && (collapseDashes t).headD ' ' == '-' then collapseDashes t
      else c :: collapseDashes t := rfl

theorem mem_collapseDashes {a : Char} {l : List Char} :
    a ∈ collapseDashes l → a ∈ l := by
  induction l with
  | nil => simp [collapseDashes]
  | cons c t ih =>
    intro h
    rw [collapseDashes_cons] at h
    by_cases hc : (c == '-' && (collapseDashes t).headD ' ' == '-') = true
    · rw [if_pos hc] at h
      exact List.mem_cons_of_mem _ (ih h)
    · rw [if_neg hc] at h
      rcases List.mem_cons.mp h with h1 | h2
      · exact h1 ▸ List.mem_cons_self _ _
      · exact List.mem_cons_of_mem _ (ih h2)

/-- Two `-` characters are never adjacent after `collapseDashes`. -/
theorem collapseDashes_chain (l : List Char) :
    (collapseDashes l).Chain' (fun a b => ¬(a = '-' ∧ b = '-')) := by
  induction l with
  | nil => simp [collapseDashes]
  | cons c t ih =>
    rw [collapseDashes_cons]
    by_cases hc : (c == '-' && (collapseDashes t).headD ' ' == '-') = true
    · rw [if_pos hc]
      exact ih
    · rw [if_neg hc]
      rcases hd : collapseDashes t with _ | ⟨d, rest⟩
      · simp
      · rw [hd] at ih hc
        refine List.chain'_cons.mpr ⟨?_, ih⟩
        intro ⟨hcd, hdd⟩
        apply hc
        simp [hcd, hdd]

theorem trimDashes_within (l : List Char) : trimDashes l <:+: l := by
  unfold trimDashes
  have h1 : (l.dropWhile (· == '-')) <:+ l := List.dropWhile_suffix _
  have h2 :
      ((l.dropWhile (· == '-')).reverse.dropWhile (· == '-')).reverse <+:
        l.dropWhile (· == '-') := by
    have := List.dropWhile_suffix (l := (l.dropWhile (· == '-')).reverse)
      (· == '-')
    have hrev := List.reverse_prefix.mpr this
    simpa using hrev
  exact List.IsInfix.trans (List.IsPrefix.isInfix h2) (List.IsSuffix.isInfix h1)

/-- Every character of a slug is either the separator `-` or a
non-uppercase alphanumeric character. -/
theorem parameterize_chars {s : String} {c : Char}
    (h : c ∈ (parameterize s).data) :
    c = '-' ∨ (c.isAlphanum = true ∧ c.isUpper = false) := by
  unfold parameterize at h
  simp only [String.data] at h
  have h1 : c ∈ collapseDashes (s.data.map fun c =>
      if (c.toLower).isAlphanum then c.toLower else '-') :=
    (trimDashes_within _).mem h
  have h2 := mem_collapseDashes h1
  rcases List.mem_map.mp h2 with ⟨c0, _, hmap⟩
  by_cases halnum : ((c0.toLower).isAlphanum) = true
  · rw [if_pos halnum] at hmap
    right
    refine ⟨hmap ▸ halnum, hmap ▸ toLower_not_upper c0⟩
  · rw [if_neg halnum] at hmap
    left
    exact hmap.symm

/-- A slug never contains two adjacent separator characters: each run of
non-alphanumeric input characters collapses to a single `-`. -/
theorem parameterize_no_double_dash (s : String) :
    ((parameterize s).data).Chain' (fun a b => ¬(a = '-' ∧ b = '-')) := by
  unfold parameterize
  exact List.Chain'.infix (collapseDashes_chain _) (trimDashes_within _)

/-! ### Case analysis of downloadBlock -/

/-- Exhaustive description of the five reachable branches of
`downloadBlock`: no image, skip-existing, dry-run, fetch failure (thrown or
empty body), and successful download. -/
theorem downloadBlock_spec (opts : Options) (net : Net) (dir : String)
    (b : Block) (s : DLState) :
    (b.image = none ∧
      downloadBlock opts net dir b s =
        ({ s with stats := { s.stats with noImage := s.stats.noImage + 1 } },
         .okSkipped "no-image")) ∨
    (∃ img, b.image = some img ∧
      (((opts.skipExisting && fsNonEmptyAt s.fsys (blockPath dir b)) = true ∧
        downloadBlock opts net dir b s =
          ({ s with stats := { s.stats with skipped := s.stats.skipped + 1 } },
           .okSkipped "exists")) ∨
      ((opts.skipExisting && fsNonEmptyAt s.fsys (blockPath dir b)) = false ∧
        opts.dryRun = true ∧
        downloadBlock opts net dir b s =
          ({ s with
              stats := { s.stats with downloaded := s.stats.downloaded + 1 },
              downloadedBlocks := s.downloadedBlocks ++ [b] },
           .okDownloaded)) ∨
      ((opts.skipExisting && fsNonEmptyAt s.fsys (blockPath dir b)) = false ∧
        opts.dryRun = false ∧
        (∃ msg, net img.originalUrl = .failure msg ∧
          downloadBlock opts net dir b s =
            ({ s with
                stats := { s.stats with failed := s.stats.failed + 1 },
                failedBlocks := s.failedBlocks ++ [⟨b.id, b.title, msg⟩],
                fetchLog := s.fetchLog ++ [img.originalUrl] },
             .failed msg))) ∨
      ((opts.skipExisting && fsNonEmptyAt s.fsys (blockPath dir b)) = false ∧
        opts.dryRun = false ∧
        net img.originalUrl = .success 0 ∧
        downloadBlock opts net dir b s =
          ({ s with
              stats := { s.stats with failed := s.stats.failed + 1 },
              failedBlocks :=
                s.failedBlocks ++ [⟨b.id, b.title, "Received empty response"⟩],
              fetchLog := s.fetchLog ++ [img.originalUrl] },
           .failed "Received empty response")) ∨
      ((opts.skipExisting && fsNonEmptyAt s.fsys (blockPath dir b)) = false ∧
        opts.dryRun = false ∧
        (∃ n, net img.originalUrl = .success (n + 1) ∧
          downloadBlock opts net dir b s =
            ({ s with
                stats := { s.stats with downloaded := s.stats.downloaded + 1 },
                downloadedBlocks := s.downloadedBlocks ++ [b],
                fsys := fsWrite s.fsys (blockPath dir b) (n + 1),
                fetchLog := s.fetchLog ++ [img.originalUrl] },
             .okDownloaded))))) := by
  cases himg : b.image with
  | none =>
    left
    refine ⟨rfl, ?_⟩
    simp [downloadBlock, himg]
  | some img =>
    right
    refine ⟨img, rfl, ?_⟩
    by_cases hskip :
        (opts.skipExisting && fsNonEmptyAt s.fsys (blockPath dir b)) = true
    · left
      refine ⟨hskip, ?_⟩
      simp only [downloadBlock, himg, blockPath]
      rw [if_pos (by simpa [blockPath] using hskip)]
    · have hskip' :
          (opts.skipExisting && fsNonEmptyAt s.fsys (blockPath dir b)) = false :=
        Bool.not_eq_true _ ▸ Bool.eq_false_iff.mpr hskip
      right
      by_cases hdry : opts.dryRun = true
      · left
        refine ⟨hskip', hdry, ?_⟩
        simp only [downloadBlock, himg]
        rw [if_neg (by simpa [blockPath] using hskip), if_pos hdry]
      · have hdry' : opts.dryRun = false := Bool.eq_false_iff.mpr hdry
        right
        cases hnet : net img.originalUrl with
        | failure msg =>
          left
          refine ⟨hskip', hdry', msg, rfl, ?_⟩
          simp only [downloadBlock, himg]
          rw [if_neg (by simpa [blockPath] using hskip), if_neg hdry, hnet]
        | success n =>
          cases n with
          | zero =>
            right; left
            refine ⟨hskip', hdry', rfl, ?_⟩
            simp only [downloadBlock, himg]
            rw [if_neg (by simpa [blockPath] using hskip), if_neg hdry, hnet]
          | succ m =>
            right; right
            refine ⟨hskip', hdry', m, rfl, ?_⟩
            simp only [downloadBlock, himg]
            rw [if_neg (by simpa [blockPath] using hskip), if_neg hdry, hnet]

/-! ### Per-job counter facts -/

/-- Every execution of `downloadBlock` leaves `total` alone and bumps exactly
one of the four per-job counters by one. -/
theorem downloadBlock_one_counter (opts : Options) (net : Net) (dir : String)
    (b : Block) (s : DLState) :
    (downloadBlock opts net dir b s).1.stats.total = s.stats.total ∧
    ((downloadBlock opts net dir b s).1.stats =
        { s.stats with noImage := s.stats.noImage + 1 } ∨
      (downloadBlock opts net dir b s).1.stats =
        { s.stats with skipped := s.stats.skipped + 1 } ∨
      (downloadBlock opts net dir b s).1.stats =
        { s.stats with downloaded := s.stats.downloaded + 1 } ∨
      (downloadBlock opts net dir b s).1.stats =
        { s.stats with failed := s.stats.failed + 1 }) := by
  rcases downloadBlock_spec opts net dir b s with
    ⟨_, heq⟩ | ⟨img, _, hcase⟩
  · rw [heq]
    exact ⟨rfl, .inl rfl⟩
  · rcases hcase with ⟨_, heq⟩ | ⟨_, _, heq⟩ | ⟨_, _, _, _, heq⟩ |
      ⟨_, _, _, heq⟩ | ⟨_, _, _, _, heq⟩ <;> rw [heq]
    · exact ⟨rfl, .inr (.inl rfl)⟩
    · exact ⟨rfl, .inr (.inr (.inl rfl))⟩
    · exact ⟨rfl, .inr (.inr (.inr rfl))⟩
    · exact ⟨rfl, .inr (.inr (.inr rfl))⟩
    · exact ⟨rfl, .inr (.inr (.inl rfl))⟩

theorem downloadBlock_jobSum (opts : Options) (net : Net) (dir : String)
    (b : Block) (s : DLState) :
    jobSum (downloadBlock opts net dir b s).1.stats = jobSum s.stats + 1 := by
  rcases (downloadBlock_one_counter opts net dir b s).2 with h | h | h | h <;>
    rw [h] <;> simp [jobSum] <;> omega

/-! ### runBlocks induction lemmas -/

theorem runBlocks_nil (opts : Options) (net : Net) (dir : String)
    (s : DLState) : runBlocks opts net dir [] s = s := rfl

theorem runBlocks_cons (opts : Options) (net : Net) (dir : String)
    (b : Block) (t : List Block) (s : DLState) :
    runBlocks opts net dir (b :: t) s =
      runBlocks opts net dir t (downloadBlock opts net dir b s).1 := rfl

theorem runBlocks_append (opts : Options) (net : Net) (dir : String)
    (l₁ l₂ : List Block) (s : DLState) :
    runBlocks opts net dir (l₁ ++ l₂) s =
      runBlocks opts net dir l₂ (runBlocks opts net dir l₁ s) :=
  List.foldl_append ..

theorem runBlocks_total (opts : Options) (net : Net) (dir : String)
    (blocks : List Block) (s : DLState) :
    (runBlocks opts net dir blocks s).stats.total = s.stats.total := by
  induction blocks generalizing s with
  | nil => rfl
  | cons b t ih =>
    rw [runBlocks_cons, ih]
    exact (downloadBlock_one_counter opts net dir b s).1

/-- Each job settles and contributes exactly one to the per-job counter sum:
a batch of `n` jobs is fully executed. -/
theorem runBlocks_jobSum (opts : Options) (net : Net) (dir : String)
    (blocks : List Block) (s : DLState) :
    jobSum (runBlocks opts net dir blocks s).stats =
      jobSum s.stats + blocks.length := by
  induction blocks generalizing s with
  | nil => rfl
  | cons b t ih =>
    rw [runBlocks_cons, ih, downloadBlock_jobSum, List.length_cons]
    omega

theorem runBlocks_failed_mono (opts : Options) (net : Net) (dir : String)
    (blocks : List Block) (s : DLState) :
    s.stats.failed ≤ (runBlocks opts net dir blocks s).stats.failed := by
  induction blocks generalizing s with
  | nil => exact Nat.le_refl _
  | cons b t ih =>
    rw [runBlocks_cons]
    refine Nat.le_trans ?_ (ih _)
    rcases (downloadBlock_one_counter opts net dir b s).2 with h | h | h | h <;>
      rw [h] <;> simp

/-- `failedBlocks` only ever grows, and every appended record carries the id
and title of an image-bearing block of the batch. -/
theorem runBlocks_failedBlocks (opts : Options) (net : Net) (dir : String)
    (blocks : List Block) (s : DLState) :
    ∃ new, (runBlocks opts net dir blocks s).failedBlocks =
        s.failedBlocks ++ new ∧
      ∀ r ∈ new, ∃ b ∈ blocks, b.image.isSome = true ∧ r.blockId = b.id ∧
        r.title = b.title := by
  induction blocks generalizing s with
  | nil => exact ⟨[], by simp [runBlocks_nil]⟩
  | cons b t ih =>
    rw [runBlocks_cons]
    obtain ⟨new, hnew, hmem⟩ := ih (downloadBlock opts net dir b s).1
    have tailmem : ∀ r ∈ new, ∃ b' ∈ b :: t, b'.image.isSome = true ∧
        r.blockId = b'.id ∧ r.title = b'.title := fun r hr => by
      obtain ⟨b', hb', h⟩ := hmem r hr
      exact ⟨b', List.mem_cons_of_mem _ hb', h⟩
    rcases downloadBlock_spec opts net dir b s with
      ⟨_, heq⟩ | ⟨img, himg, hcase⟩
    · rw [heq] at hnew ⊢
      refine ⟨new, ?_, tailmem⟩
      rw [hnew]
    · have himgSome : b.image.isSome = true := by rw [himg]; rfl
      rcases hcase with ⟨_, heq⟩ | ⟨_, _, heq⟩ | ⟨_, _, msg, _, heq⟩ |
        ⟨_, _, _, heq⟩ | ⟨_, _, n, _, heq⟩ <;> rw [heq] at hnew ⊢
      · exact ⟨new, by rw [hnew], tailmem⟩
      · exact ⟨new, by rw [hnew], tailmem⟩
      · refine ⟨⟨b.id, b.title, msg⟩ :: new, by rw [hnew]; simp,
          fun r hr => ?_⟩
        rcases List.mem_cons.mp hr with h1 | h2
        · exact ⟨b, List.mem_cons_self _ _, himgSome, by rw [h1], by rw [h1]⟩
        · exact tailmem r h2
      · refine ⟨⟨b.id, b.title, "Received empty response"⟩ :: new,
          by rw [hnew]; simp, fun r hr => ?_⟩
        rcases List.mem_cons.mp hr with h1 | h2
        · exact ⟨b, List.mem_cons_self _ _, himgSome, by rw [h1], by rw [h1]⟩
        · exact tailmem r h2
      · exact ⟨new, by rw [hnew], tailmem⟩

/-- `downloadedBlocks` only ever grows, and every appended block is an
image-bearing member of the batch. -/
theorem runBlocks_downloadedBlocks (opts : Options) (net : Net) (dir : String)
    (blocks : List Block) (s : DLState) :
    ∃ new, (runBlocks opts net dir blocks s).downloadedBlocks =
        s.downloadedBlocks ++ new ∧
      ∀ x ∈ new, x ∈ blocks ∧ x.image.isSome = true := by
  induction blocks generalizing s with
  | nil => exact ⟨[], by simp [runBlocks_nil]⟩
  | cons b t ih =>
    rw [runBlocks_cons]
    obtain ⟨new, hnew, hmem⟩ := ih (downloadBlock opts net dir b s).1
    have tailmem : ∀ x ∈ new, x ∈ b :: t ∧ x.image.isSome = true :=
      fun x hx => ⟨List.mem_cons_of_mem _ (hmem x hx).1, (hmem x hx).2⟩
    rcases downloadBlock_spec opts net dir b s with
      ⟨_, heq⟩ | ⟨img, himg, hcase⟩
    · rw [heq] at hnew ⊢
      exact ⟨new, by rw [hnew], tailmem⟩
    · have himgSome : b.image.isSome = true := by rw [himg]; rfl
      rcases hcase with ⟨_, heq⟩ | ⟨_, _, heq⟩ | ⟨_, _, msg, _, heq⟩ |
        ⟨_, _, _, heq⟩ | ⟨_, _, n, _, heq⟩ <;> rw [heq] at hnew ⊢
      · exact ⟨new, by rw [hnew], tailmem⟩
      · refine ⟨b :: new, by rw [hnew]; simp, fun x hx => ?_⟩
        rcases List.mem_cons.mp hx with h1 | h2
        · exact ⟨h1 ▸ List.mem_cons_self _ _, h1 ▸ himgSome⟩
        · exact tailmem x h2
      · exact ⟨new, by rw [hnew], tailmem⟩
      · exact ⟨new, by rw [hnew], tailmem⟩
      · refine ⟨b :: new, by rw [hnew]; simp, fun x hx => ?_⟩
        rcases List.mem_cons.mp hx with h1 | h2
        · exact ⟨h1 ▸ List.mem_cons_self _ _, h1 ▸ himgSome⟩
        · exact tailmem x h2

/-! ### Filesystem lemmas -/

theorem fsNonEmptyAt_write (fs : FS) (p q : String) (n : Nat)
    (h : fsNonEmptyAt fs p = true) :
    fsNonEmptyAt (fsWrite fs q (n + 1)) p = true := by
  unfold fsNonEmptyAt fsFind fsWrite at *
  by_cases hpq : (q == p) = true
  · simp [List.find?, hpq]
  · simpa [List.find?, hpq] using h

/-- Writes are always non-empty, so a path holding a non-empty file keeps
holding one through any batch. -/
theorem runBlocks_fs_mono (opts : Options) (net : Net) (dir : String)
    (blocks : List Block) (s : DLState) (p : String)
    (h : fsNonEmptyAt s.fsys p = true) :
    fsNonEmptyAt (runBlocks opts net dir blocks s).fsys p = true := by
  induction blocks generalizing s with
  | nil => exact h
  | cons b t ih =>
    rw [runBlocks_cons]
    apply ih
    rcases downloadBlock_spec opts net dir b s with
      ⟨_, heq⟩ | ⟨img, himg, hcase⟩
    · rw [heq]; exact h
    · rcases hcase with ⟨_, heq⟩ | ⟨_, _, heq⟩ | ⟨_, _, msg, _, heq⟩ |
        ⟨_, _, _, heq⟩ | ⟨_, _, n, _, heq⟩ <;> rw [heq]
      · exact h
      · exact h
      · exact h
      · exact h
      · exact fsNonEmptyAt_write _ _ _ _ h

/-- If a batch finishes with no new failure (and is not a dry run), then
every image-bearing block of the batch ends with a non-empty file at its
target path: it was either downloaded (written non-empty) or skipped (already
non-empty). -/
theorem runBlocks_no_fail_nonEmpty (opts : Options) (net : Net) (dir : String)
    (blocks : List Block) (s : DLState)
    (hdry : opts.dryRun = false)
    (hfail : (runBlocks opts net dir blocks s).stats.failed = s.stats.failed) :
    ∀ b ∈ blocks, b.image.isSome = true →
      fsNonEmptyAt (runBlocks opts net dir blocks s).fsys (blockPath dir b) =
        true := by
  induction blocks generalizing s with
  | nil => intro b hb; exact absurd hb (List.not_mem_nil b)
  | cons b t ih =>
    intro b' hb' himg'
    rw [runBlocks_cons] at hfail ⊢
    rcases downloadBlock_spec opts net dir b s with
      ⟨himg, heq⟩ | ⟨img, himg, hcase⟩
    · rcases List.mem_cons.mp hb' with h1 | h2
      · rw [h1, himg] at himg'
        exact absurd himg' (by simp)
      · rw [heq] at hfail ⊢
        exact ih _ (by simpa using hfail) b' h2 himg'
    · rcases hcase with ⟨hskip, heq⟩ | ⟨_, hdry', heq⟩ |
        ⟨_, _, msg, hnet, heq⟩ | ⟨_, _, hnet, heq⟩ | ⟨_, _, n, hnet, heq⟩
      · -- skipped: the file at b's path was already non-empty
        rw [heq] at hfail ⊢
        rcases List.mem_cons.mp hb' with h1 | h2
        · subst h1
          apply runBlocks_fs_mono
          exact (Bool.and_eq_true _ _).mp hskip |>.2
        · exact ih _ (by simpa using hfail) b' h2 himg'
      · rw [hdry'] at hdry
        exact absurd hdry (by simp)
      · -- a thrown fetch error contradicts `failed` being unchanged
        exfalso
        rw [heq] at hfail
        dsimp only at hfail
        have hmono := runBlocks_failed_mono opts net dir t
          ({ s with
              stats := { s.stats with failed := s.stats.failed + 1 },
              failedBlocks := s.failedBlocks ++ [⟨b.id, b.title, msg⟩],
              fetchLog := s.fetchLog ++ [img.originalUrl] })
        simp only at hmono
        omega
      · exfalso
        rw [heq] at hfail
        dsimp only at hfail
        have hmono := runBlocks_failed_mono opts net dir t
          ({ s with
              stats := { s.stats with failed := s.stats.failed + 1 },
              failedBlocks :=
                s.failedBlocks ++ [⟨b.id, b.title, "Received empty response"⟩],
              fetchLog := s.fetchLog ++ [img.originalUrl] })
        simp only at hmono
        omega
      · -- downloaded: a non-empty file was just written at b's path
        rw [heq] at hfail ⊢
        rcases List.mem_cons.mp hb' with h1 | h2
        · subst h1
          apply runBlocks_fs_mono
          unfold fsNonEmptyAt fsFind fsWrite
          simp [List.find?]
        · exact ih _ (by simpa using hfail) b' h2 himg'

/-- When skip-existing is on and every block of the batch is image-bearing
with a non-empty file already at its target path, the whole batch is skipped:
only `skipped` moves, by exactly the batch length, and nothing else in the
state changes. -/
theorem runBlocks_all_skip (opts : Options) (net : Net) (dir : String)
    (blocks : List Block) (s : DLState)
    (hskip : opts.skipExisting = true)
    (himg : ∀ b ∈ blocks, b.image.isSome = true)
    (hfs : ∀ b ∈ blocks, fsNonEmptyAt s.fsys (blockPath dir b) = true) :
    runBlocks opts net dir blocks s =
      { s with stats :=
          { s.stats with skipped := s.stats.skipped + blocks.length } } := by
  induction blocks generalizing s with
  | nil =>
    rw [runBlocks_nil]
    simp
  | cons b t ih =>
    rw [runBlocks_cons]
    have hb := himg b (List.mem_cons_self _ _)
    obtain ⟨img, himgb⟩ := Option.isSome_iff_exists.mp hb
    have hcond : (opts.skipExisting && fsNonEmptyAt s.fsys (blockPath dir b)) =
        true := by
      rw [hskip, hfs b (List.mem_cons_self _ _)]
      rfl
    have heq : downloadBlock opts net dir b s =
        ({ s with stats := { s.stats with skipped := s.stats.skipped + 1 } },
         .okSkipped "exists") := by
      rcases downloadBlock_spec opts net dir b s with
        ⟨hnone, _⟩ | ⟨img', _, hcase⟩
      · rw [hnone] at himgb; cases himgb
      · rcases hcase with ⟨_, h⟩ | ⟨hc, _, _⟩ | ⟨hc, _, _, _, _⟩ |
          ⟨hc, _, _, _⟩ | ⟨hc, _, _, _, _⟩
        · exact h
        all_goals rw [hcond] at hc; cases hc
    rw [heq]
    have := ih ({ s with stats :=
        { s.stats with skipped := s.stats.skipped + 1 } })
      (fun b' hb' => himg b' (List.mem_cons_of_mem _ hb'))
      (fun b' hb' => hfs b' (List.mem_cons_of_mem _ hb'))
    rw [this]
    simp only [List.length_cons]
    congr 1
    congr 1
    omega

/-- In dry-run mode, a batch of image-bearing blocks none of which is
skipped is counted in full: `downloaded` moves by the batch length, the
blocks are appended to `downloadedBlocks`, and the filesystem and fetch log
are untouched. -/
theorem runBlocks_dry (opts : Options) (net : Net) (dir : String)
    (blocks : List Block) (s : DLState)
    (hdry : opts.dryRun = true)
    (himg : ∀ b ∈ blocks, b.image.isSome = true)
    (hfs : ∀ b ∈ blocks, fsNonEmptyAt s.fsys (blockPath dir b) = false) :
    runBlocks opts net dir blocks s =
      { s with
          stats := { s.stats with
            downloaded := s.stats.downloaded + blocks.length },
          downloadedBlocks := s.downloadedBlocks ++ blocks } := by
  induction blocks generalizing s with
  | nil =>
    rw [runBlocks_nil]
    simp
  | cons b t ih =>
    rw [runBlocks_cons]
    have hb := himg b (List.mem_cons_self _ _)
    obtain ⟨img, himgb⟩ := Option.isSome_iff_exists.mp hb
    have hcond : (opts.skipExisting && fsNonEmptyAt s.fsys (blockPath dir b)) =
        false := by
      rw [hfs b (List.mem_cons_self _ _)]
      simp
    have heq : downloadBlock opts net dir b s =
        ({ s with
            stats := { s.stats with downloaded := s.stats.downloaded + 1 },
            downloadedBlocks := s.downloadedBlocks ++ [b] },
         .okDownloaded) := by
      rcases downloadBlock_spec opts net dir b s with
        ⟨hnone, _⟩ | ⟨img', _, hcase⟩
      · rw [hnone] at himgb; cases himgb
      · rcases hcase with ⟨hc, _⟩ | ⟨_, _, h⟩ | ⟨_, hd, _, _, _⟩ |
          ⟨_, hd, _, _⟩ | ⟨_, hd, _, _, _⟩
        · rw [hcond] at hc; cases hc
        · exact h
        all_goals rw [hdry] at hd; cases hd
    rw [heq]
    have := ih ({ s with
        stats := { s.stats with downloaded := s.stats.downloaded + 1 },
        downloadedBlocks := s.downloadedBlocks ++ [b] })
      (fun b' hb' => himg b' (List.mem_cons_of_mem _ hb'))
      (fun b' hb' => hfs b' (List.mem_cons_of_mem _ hb'))
    rw [this]
    simp only [List.length_cons, List.append_assoc, List.singleton_append]
    congr 1
    congr 1
    omega

/-! ### Chunking lemmas -/

theorem chunksOfAux_zero (k : Nat) (l : List α) : chunksOfAux k 0 l = [] := by
  cases l <;> rfl

theorem chunksOfAux_succ_nil (k fuel : Nat) :
    chunksOfAux (α := α) k (fuel + 1) [] = [] := rfl

theorem chunksOfAux_succ_cons (k fuel : Nat) (a : α) (t : List α) :
    chunksOfAux k (fuel + 1) (a :: t) =
      (a :: t).take k :: chunksOfAux k fuel ((a :: t).drop k) := rfl

theorem chunksOfAux_length_le (k : Nat) (fuel : Nat) (l : List α) :
    ∀ c ∈ chunksOfAux k fuel l, c.length ≤ k := by
  induction fuel generalizing l with
  | zero =>
    intro c hc
    rw [chunksOfAux_zero] at hc
    exact absurd hc (List.not_mem_nil c)
  | succ fuel ih =>
    intro c hc
    cases l with
    | nil =>
      rw [chunksOfAux_succ_nil] at hc
      exact absurd hc (List.not_mem_nil c)
    | cons a t =>
      rw [chunksOfAux_succ_cons] at hc
      rcases List.mem_cons.mp hc with h1 | h2
      · rw [h1]
        exact (List.length_take _ _) ▸ Nat.min_le_left _ _
      · exact ih _ c h2

theorem chunksOfAux_flatten (k : Nat) (hk : 0 < k) (fuel : Nat) (l : List α)
    (hfuel : l.length ≤ fuel) : (chunksOfAux k fuel l).flatten = l := by
  induction fuel generalizing l with
  | zero =>
    cases l with
    | nil => rfl
    | cons a t => exact absurd hfuel (by simp)
  | succ fuel ih =>
    cases l with
    | nil => rfl
    | cons a t =>
      rw [chunksOfAux_succ_cons, List.flatten_cons]
      rw [ih ((a :: t).drop k) ?_, List.take_append_drop]
      have hd : ((a :: t).drop k).length = (a :: t).length - k :=
        List.length_drop ..
      rw [hd]
      simp only [List.length_cons] at hfuel ⊢
      omega

theorem chunksOf_length_le (k : Nat) (l : List α) :
    ∀ c ∈ chunksOf k l, c.length ≤ k :=
  chunksOfAux_length_le k l.length l

theorem chunksOf_flatten (k : Nat) (hk : 0 < k) (l : List α) :
    (chunksOf k l).flatten = l :=
  chunksOfAux_flatten k hk l.length l (Nat.le_refl _)

theorem runBlocks_flatten (opts : Options) (net : Net) (dir : String)
    (chunks : List (List Block)) (s : DLState) :
    chunks.foldl (fun st c => runBlocks opts net dir c st) s =
      runBlocks opts net dir chunks.flatten s := by
  induction chunks generalizing s with
  | nil => rfl
  | cons c rest ih =>
    rw [List.foldl_cons, List.flatten_cons, runBlocks_append, ih]

/-- Chunked processing has the same aggregate effect as processing the job
sequence in order: each chunk fully settles (the `Promise.all` join point)
before the next one starts. -/
theorem downloadInChunks_eq_runBlocks (opts : Options) (net : Net)
    (dir : String) (blocks : List Block) (s : DLState) :
    downloadInChunks opts net dir blocks s = runBlocks opts net dir blocks s := by
  unfold downloadInChunks
  rw [runBlocks_flatten, chunksOf_flatten CONCURRENT_DOWNLOADS (by decide)]

/-! ### Pagination lemmas -/

theorem fetchPagesAux_trace (pages : Pages) (totalPages : Nat) :
    ∀ remaining page, page + remaining = totalPages + 1 →
      (fetchPagesAux pages totalPages page remaining).2 =
        List.intersperse FetchEvent.interPageDelay
          ((List.range' page remaining).map FetchEvent.pageRequest) := by
  intro remaining
  induction remaining with
  | zero => intro page _; rfl
  | succ r ih =>
    intro page hpage
    rw [fetchPagesAux]
    cases r with
    | zero =>
      have hlt : ¬ page < totalPages := by omega
      rw [if_neg hlt]
      simp [fetchPagesAux, List.range']
    | succ r' =>
      have hlt : page < totalPages := by omega
      rw [if_pos hlt, ih (page + 1) (by omega)]
      conv_rhs => rw [List.range'_succ, List.map_cons]
      have hsplit : (List.range' (page + 1) (r' + 1)).map FetchEvent.pageRequest =
          FetchEvent.pageRequest (page + 1) ::
            (List.range' (page + 2) r').map FetchEvent.pageRequest := by
        rw [List.range'_succ, List.map_cons]
      rw [hsplit, List.intersperse_cons_cons]
      rfl

theorem fetchPagesAux_blocks (pages : Pages) (totalPages : Nat) :
    ∀ remaining page,
      (fetchPagesAux pages totalPages page remaining).1 =
        ((List.range' page remaining).map pages).flatten := by
  intro remaining
  induction remaining with
  | zero => intro page; rfl
  | succ r ih =>
    intro page
    rw [fetchPagesAux, List.range'_succ, List.map_cons, List.flatten_cons, ih]

/-- The trace of `fetchAllBlocks(totalBlocks)`: one request per page
`1..ceil(totalBlocks / 100)`, in ascending order, with exactly one delay
between consecutive requests. -/
theorem fetchAllBlocks_trace (pages : Pages) (totalBlocks : Nat) :
    (fetchAllBlocks pages totalBlocks).2 =
      List.intersperse FetchEvent.interPageDelay
        ((List.range' 1 ((totalBlocks + (PER_PAGE - 1)) / PER_PAGE)).map
          FetchEvent.pageRequest) :=
  fetchPagesAux_trace pages _ _ 1 (by omega)

/-- The blocks of `fetchAllBlocks(totalBlocks)`: the concatenation of the
pages `1..ceil(totalBlocks / 100)` in origin order. -/
theorem fetchAllBlocks_blocks (pages : Pages) (totalBlocks : Nat) :
    (fetchAllBlocks pages totalBlocks).1 =
      ((List.range' 1 ((totalBlocks + (PER_PAGE - 1)) / PER_PAGE)).map
        pages).flatten :=
  fetchPagesAux_blocks pages _ _ 1

/-! ### download decomposition -/

theorem download_ok (slug outputDir : String) (opts : Options)
    (info : ChannelInfo) (pages : Pages) (net : Net) (s : DLState) :
    download slug outputDir opts (.ok info) pages net s =
      { state := runState slug outputDir opts info pages net s,
        exit := .success,
        logWritten :=
          if 0 < (runState slug outputDir opts info pages net s).stats.failed
          then some (failedLogContent
            (runState slug outputDir opts info pages net s).failedBlocks)
          else none,
        manifest :=
          match opts.exportFormat with
          | some _ => some (exportEntries
              (runState slug outputDir opts info pages net s).downloadedBlocks)
          | none => none,
        pageTrace := (fetchAllBlocks pages info.length).2 } := rfl

theorem download_err (slug outputDir : String) (opts : Options) (e : String)
    (pages : Pages) (net : Net) (s : DLState) :
    download slug outputDir opts (.error e) pages net s =
      { state := s, exit := .failure, logWritten := none, manifest := none,
        pageTrace := [] } := rfl

theorem runState_eq (slug outputDir : String) (opts : Options)
    (info : ChannelInfo) (pages : Pages) (net : Net) (s : DLState) :
    runState slug outputDir opts info pages net s =
      runBlocks opts net (pathJoin outputDir slug)
        (imageBlocks pages info.length)
        { s with stats := { s.stats with total := info.length } } := by
  unfold runState
  rw [downloadInChunks_eq_runBlocks]

/-! ### Claim C1 -/

/-- C1.  For every Job (an image-bearing block), if skip-existing is enabled
and a non-empty file already exists at the Job's target path, the Job
resolves as skipped: the `skipped` counter increments and nothing else in the
state changes — in particular the fetch log is untouched, so no fetch was
attempted.  With `force=true` (skip-existing disabled) the Job never resolves
as skipped-for-existing even when a non-empty file exists, and (outside
dry-run) an image fetch is actually issued. -/
theorem claim_C1 :
    (∀ (opts : Options) (net : Net) (dir : String) (b : Block) (img : Image)
        (s : DLState),
      b.image = some img →
      opts.skipExisting = true →
      fsNonEmptyAt s.fsys (blockPath dir b) = true →
      downloadBlock opts net dir b s =
        ({ s with stats := { s.stats with skipped := s.stats.skipped + 1 } },
         .okSkipped "exists")) ∧
    (∀ (opts : Options) (net : Net) (dir : String) (b : Block) (img : Image)
        (s : DLState),
      b.image = some img →
      opts.skipExisting = false →
      fsNonEmptyAt s.fsys (blockPath dir b) = true →
      (downloadBlock opts net dir b s).2 ≠ .okSkipped "exists" ∧
      (opts.dryRun = false →
        (downloadBlock opts net dir b s).1.fetchLog =
          s.fetchLog ++ [img.originalUrl])) := by
  constructor
  · intro opts net dir b img s himg hskip hfs
    have hcond : (opts.skipExisting &&
        fsNonEmptyAt s.fsys (blockPath dir b)) = true := by
      rw [hskip, hfs]; rfl
    rcases downloadBlock_spec opts net dir b s with
      ⟨hnone, _⟩ | ⟨img', _, hcase⟩
    · rw [himg] at hnone; cases hnone
    · rcases hcase with ⟨_, h⟩ | ⟨hc, _, _⟩ | ⟨hc, _, _, _, _⟩ |
        ⟨hc, _, _, _⟩ | ⟨hc, _, _, _, _⟩
      · exact h
      all_goals rw [hcond] at hc; cases hc
  · intro opts net dir b img s himg hforce hfs
    have hcond : (opts.skipExisting &&
        fsNonEmptyAt s.fsys (blockPath dir b)) = false := by
      rw [hforce]; rfl
    rcases downloadBlock_spec opts net dir b s with
      ⟨hnone, _⟩ | ⟨img', himg', hcase⟩
    · rw [himg] at hnone; cases hnone
    · have himgeq : img' = img := by
        rw [himg] at himg'; exact (Option.some.injEq _ _ ▸ himg').symm
      subst himgeq
      rcases hcase with ⟨hc, _⟩ | ⟨_, hdry, h⟩ | ⟨_, hdry, msg, hnet, h⟩ |
        ⟨_, hdry, hnet, h⟩ | ⟨_, hdry, n, hnet, h⟩
      · rw [hcond] at hc; cases hc
      · rw [h]
        refine ⟨by simp, fun hnd => ?_⟩
        rw [hdry] at hnd; cases hnd
      · rw [h]
        exact ⟨by simp, fun _ => rfl⟩
      · rw [h]
        exact ⟨by simp, fun _ => rfl⟩
      · rw [h]
        exact ⟨by simp, fun _ => rfl⟩

/-- Witness for C1: block 42 with a non-empty `42_sea-wall.png` already on
disk is skipped when skip-existing is on, and with `force` the fetch is
issued. -/
theorem claim_C1_witness :
    (downloadBlock ⟨true, false, none⟩ (fun _ => .success 3) "out/c"
        ⟨42, some "Sea Wall", some ⟨some "image/png", "https://x/42.png"⟩⟩
        (initState [("out/c/42_sea-wall.png", 5)]) =
      ({ initState [("out/c/42_sea-wall.png", 5)] with
          stats := { (initState [("out/c/42_sea-wall.png", 5)]).stats with
            skipped :=
              (initState [("out/c/42_sea-wall.png", 5)]).stats.skipped + 1 } },
       .okSkipped "exists")) ∧
    ((downloadBlock ⟨false, false, none⟩ (fun _ => .success 3) "out/c"
        ⟨42, some "Sea Wall", some ⟨some "image/png", "https://x/42.png"⟩⟩
        (initState [("out/c/42_sea-wall.png", 5)])).1.fetchLog =
      (initState [("out/c/42_sea-wall.png", 5)]).fetchLog ++
        ["https://x/42.png"]) :=
  ⟨claim_C1.1 ⟨true, false, none⟩ (fun _ => .success 3) "out/c"
      ⟨42, some "Sea Wall", some ⟨some "image/png", "https://x/42.png"⟩⟩
      ⟨some "image/png", "https://x/42.png"⟩ _ rfl rfl (by decide),
   (claim_C1.2 ⟨false, false, none⟩ (fun _ => .success 3) "out/c"
      ⟨42, some "Sea Wall", some ⟨some "image/png", "https://x/42.png"⟩⟩
      ⟨some "image/png", "https://x/42.png"⟩ _ rfl rfl (by decide)).2 rfl⟩

/-! ### Claim C2 -/

/-- C2.  For every image-bearing block the planned local path is
`{outputDir}/{slug}/{id}_{slugifiedTitleOrId}.{ext}`: the title part is the
slugified title (lower-cased, alphanumeric-or-separator characters, no two
adjacent separators) or the numeric id when no usable title exists, and the
extension is resolved from the image content type with `jpg` as fallback.
The derivation is a pure function of the block, hence deterministic.  Block
42 "Sea Wall" with content type `image/png` yields a target path ending in
`42_sea-wall.png`. -/
theorem claim_C2 :
    (∀ (outputDir slug : String) (b : Block) (img : Image),
      b.image = some img →
      blockPath (pathJoin outputDir slug) b =
        outputDir ++ "/" ++ slug ++ "/" ++ toString b.id ++ "_" ++
          (if titleIsTruthy b.title then parameterize (b.title.getD "")
           else toString b.id) ++ "." ++
          ((mimeGetExtension img.content_type).getD "jpg")) ∧
    (∀ t : String, ∀ c ∈ (parameterize t).data,
      c = '-' ∨ (c.isAlphanum = true ∧ c.isUpper = false)) ∧
    (∀ t : String,
      ((parameterize t).data).Chain' (fun a b => ¬(a = '-' ∧ b = '-'))) ∧
    (∀ b₁ b₂ : Block, b₁ = b₂ →
      ∀ dir : String, blockPath dir b₁ = blockPath dir b₂) ∧
    (getFilename ⟨42, some "Sea Wall",
        some ⟨some "image/png", "https://x/42.png"⟩⟩ = "42_sea-wall.png" ∧
      blockPath (pathJoin "out" "ch")
          ⟨42, some "Sea Wall", some ⟨some "image/png", "https://x/42.png"⟩⟩ =
        "out/ch/42_sea-wall.png") := by
  refine ⟨?_, fun t c hc => parameterize_chars hc,
    fun t => parameterize_no_double_dash t,
    fun b₁ b₂ h dir => h ▸ rfl, by decide⟩
  intro outputDir slug b img himg
  unfold blockPath pathJoin getFilename
  rw [himg]
  cases htitle : b.title with
  | none => simp [titleIsTruthy, String.append_assoc]
  | some t =>
    dsimp only
    by_cases ht : (t == "") = true
    · have h1 : titleIsTruthy (some t) = false := by
        simp [titleIsTruthy, ht]
      rw [if_pos ht, h1]
      simp [String.append_assoc]
    · have hf : (t == "") = false := Bool.eq_false_iff.mpr ht
      have h1 : titleIsTruthy (some t) = true := by
        simp [titleIsTruthy, hf]
      rw [if_neg ht, h1]
      simp [String.append_assoc]

/-- Witness for C2: the shape equation evaluated at block 42 "Sea Wall". -/
theorem claim_C2_witness :
    blockPath (pathJoin "out" "ch")
        ⟨42, some "Sea Wall", some ⟨some "image/png", "https://x/42.png"⟩⟩ =
      "out" ++ "/" ++ "ch" ++ "/" ++
        toString (42 : Nat) ++ "_" ++
        (if titleIsTruthy (some "Sea Wall") then parameterize "Sea Wall"
         else toString (42 : Nat)) ++ "." ++
        ((mimeGetExtension (some "image/png")).getD "jpg") :=
  claim_C2.1 "out" "ch"
    ⟨42, some "Sea Wall", some ⟨some "image/png", "https://x/42.png"⟩⟩
    ⟨some "image/png", "https://x/42.png"⟩ rfl

/-! ### Claim C4 -/

/-- Filtering the interspersed trace back to its requests recovers exactly
the request list. -/
theorem filter_intersperse_requests (l : List Nat) :
    (List.intersperse FetchEvent.interPageDelay
        (l.map FetchEvent.pageRequest)).filter
      (fun e => match e with
        | FetchEvent.pageRequest _ => true
        | FetchEvent.interPageDelay => false) =
      l.map FetchEvent.pageRequest := by
  induction l with
  | nil => rfl
  | cons a t ih =>
    cases t with
    | nil => rfl
    | cons b t' =>
      rw [List.map_cons, List.map_cons, List.intersperse_cons_cons]
      rw [List.map_cons] at ih
      simp only [List.filter_cons]
      rw [ih]
      rfl

/-- C4.  `fetchAllBlocks` with total item count `N` issues exactly
`ceil(N / 100)` page requests, for pages `1 .. ceil(N / 100)`, strictly
sequentially (the event trace lists the requests in ascending page order,
and the single-threaded loop never starts page `p+1` before page `p`
completed), with exactly one fixed inter-page delay between consecutive
requests, and returns the concatenation of the page results preserving
origin order.  For `N = 150` the trace is request 1, delay, request 2. -/
theorem claim_C4 :
    (∀ (pages : Pages) (N : Nat),
      (fetchAllBlocks pages N).2 =
        List.intersperse FetchEvent.interPageDelay
          ((List.range' 1 ((N + (PER_PAGE - 1)) / PER_PAGE)).map
            FetchEvent.pageRequest) ∧
      (fetchAllBlocks pages N).1 =
        ((List.range' 1 ((N + (PER_PAGE - 1)) / PER_PAGE)).map
          pages).flatten ∧
      ((fetchAllBlocks pages N).2.filter
          (fun e => match e with
            | FetchEvent.pageRequest _ => true
            | FetchEvent.interPageDelay => false)).length =
        (N + (PER_PAGE - 1)) / PER_PAGE) ∧
    (∀ pages : Pages,
      (fetchAllBlocks pages 150).2 =
        [FetchEvent.pageRequest 1, FetchEvent.interPageDelay,
         FetchEvent.pageRequest 2]) := by
  constructor
  · intro pages N
    refine ⟨fetchAllBlocks_trace pages N, fetchAllBlocks_blocks pages N, ?_⟩
    rw [fetchAllBlocks_trace pages N, filter_intersperse_requests]
    rw [List.length_map, List.length_range']
  · intro pages
    rfl

/-! ### Claim C9 -/

/-- C9.  The orchestrator's concurrency limit is 5 by default.  For any
positive limit `k` and any Job sequence, the jobs are partitioned into
chunks of size at most `k` whose in-order concatenation is the original
sequence, and the chunks are processed strictly in sequence: the fold over
chunks (each chunk a `Promise.all` join point) equals in-order processing,
so at any instant the unresolved jobs all belong to the chunk in flight —
never more than `k` of them.  `downloadInChunks` is exactly that fold at
`k = CONCURRENT_DOWNLOADS`. -/
theorem claim_C9 :
    CONCURRENT_DOWNLOADS = 5 ∧
    (∀ (k : Nat), 0 < k → ∀ (jobs : List Block),
      (∀ c ∈ chunksOf k jobs, c.length ≤ k) ∧
      (chunksOf k jobs).flatten = jobs) ∧
    (∀ (opts : Options) (net : Net) (dir : String) (jobs : List Block)
        (s : DLState),
      downloadInChunks opts net dir jobs s =
        runBlocks opts net dir jobs s) := by
  refine ⟨rfl, fun k hk jobs =>
    ⟨chunksOf_length_le k jobs, chunksOf_flatten k hk jobs⟩,
    fun opts net dir jobs s => downloadInChunks_eq_runBlocks ..⟩

/-- Witness for C9: the default limit, applied to a 12-job sequence, yields
chunks of sizes 5, 5, 2. -/
theorem claim_C9_witness :
    (0 < 5 ∧
      ((∀ c ∈ chunksOf 5 (List.replicate 12 (⟨1, none, none⟩ : Block)),
          c.length ≤ 5) ∧
        (chunksOf 5 (List.replicate 12 (⟨1, none, none⟩ : Block))).flatten =
          List.replicate 12 (⟨1, none, none⟩ : Block))) :=
  ⟨by decide, claim_C9.2.1 5 (by decide) (List.replicate 12 ⟨1, none, none⟩)⟩

/-! ### Claim C6 -/

/-- C6.  Processing one Job increments exactly one of the four counters
`downloaded`, `skipped`, `failed`, `noImage` (first conjunct: the stats
after one `downloadBlock` are the stats before with exactly one of the four
bumped).  Consequently, over a whole run whose remote returns no more items
than the channel's reported count, the four counters sum to at most `total`
(which `download()` sets to the reported item count), and every
FailureRecord's `blockId` is the id of a fetched block that had an image. -/
theorem claim_C6 :
    (∀ (opts : Options) (net : Net) (dir : String) (b : Block) (s : DLState),
      (downloadBlock opts net dir b s).1.stats =
          { s.stats with noImage := s.stats.noImage + 1 } ∨
        (downloadBlock opts net dir b s).1.stats =
          { s.stats with skipped := s.stats.skipped + 1 } ∨
        (downloadBlock opts net dir b s).1.stats =
          { s.stats with downloaded := s.stats.downloaded + 1 } ∨
        (downloadBlock opts net dir b s).1.stats =
          { s.stats with failed := s.stats.failed + 1 }) ∧
    (∀ (slug outputDir : String) (opts : Options) (info : ChannelInfo)
        (pages : Pages) (net : Net) (fs0 : FS),
      (fetchAllBlocks pages info.length).1.length ≤ info.length →
      (download slug outputDir opts (.ok info) pages net
            (initState fs0)).state.stats.downloaded +
          (download slug outputDir opts (.ok info) pages net
            (initState fs0)).state.stats.skipped +
          (download slug outputDir opts (.ok info) pages net
            (initState fs0)).state.stats.failed +
          (download slug outputDir opts (.ok info) pages net
            (initState fs0)).state.stats.noImage ≤
        (download slug outputDir opts (.ok info) pages net
          (initState fs0)).state.stats.total ∧
      (download slug outputDir opts (.ok info) pages net
          (initState fs0)).state.stats.total = info.length) ∧
    (∀ (slug outputDir : String) (opts : Options) (info : ChannelInfo)
        (pages : Pages) (net : Net) (fs0 : FS),
      ∀ r ∈ (download slug outputDir opts (.ok info) pages net
          (initState fs0)).state.failedBlocks,
        ∃ b ∈ (fetchAllBlocks pages info.length).1,
          b.image.isSome = true ∧ r.blockId = b.id) := by
  refine ⟨fun opts net dir b s => (downloadBlock_one_counter opts net dir b s).2,
    ?_, ?_⟩
  · intro slug outputDir opts info pages net fs0 h
    rw [download_ok]
    dsimp only
    rw [runState_eq]
    have htot := runBlocks_total opts net (pathJoin outputDir slug)
      (imageBlocks pages info.length)
      { initState fs0 with stats :=
          { (initState fs0).stats with total := info.length } }
    have hsum := runBlocks_jobSum opts net (pathJoin outputDir slug)
      (imageBlocks pages info.length)
      { initState fs0 with stats :=
          { (initState fs0).stats with total := info.length } }
    have hzero : jobSum { (initState fs0).stats with total := info.length } =
        0 := rfl
    have hlen : (imageBlocks pages info.length).length ≤
        (fetchAllBlocks pages info.length).1.length :=
      List.length_filter_le _ _
    have htoteq : ({ initState fs0 with stats :=
        { (initState fs0).stats with total := info.length } } :
          DLState).stats.total = info.length := rfl
    constructor
    · show jobSum (runBlocks opts net (pathJoin outputDir slug)
          (imageBlocks pages info.length)
          { initState fs0 with stats :=
            { (initState fs0).stats with total := info.length } }).stats ≤ _
      rw [hsum, hzero, htot, htoteq]
      omega
    · rw [htot]
  · intro slug outputDir opts info pages net fs0 r hr
    rw [download_ok] at hr
    dsimp only at hr
    rw [runState_eq] at hr
    obtain ⟨new, hnew, hmem⟩ := runBlocks_failedBlocks opts net
      (pathJoin outputDir slug) (imageBlocks pages info.length)
      { initState fs0 with stats :=
          { (initState fs0).stats with total := info.length } }
    rw [hnew] at hr
    have hempty : ({ initState fs0 with stats :=
        { (initState fs0).stats with total := info.length } } :
          DLState).failedBlocks = [] := rfl
    rw [hempty, List.nil_append] at hr
    obtain ⟨b, hb, himg, hid, _⟩ := hmem r hr
    have hb' := List.mem_filter.mp hb
    exact ⟨b, hb'.1, himg, hid⟩

/-- Witness for C6: a one-item channel whose single block downloads;
the counters sum to 1 ≤ total = 1. -/
theorem claim_C6_witness :
    ((fetchAllBlocks (fun p => if p = 1 then
        [(⟨42, some "Sea Wall", some ⟨some "image/png", "https://x/42.png"⟩⟩ :
          Block)] else []) (1 : Nat)).1.length ≤ 1) ∧
    ((download "ch" "out" ⟨true, false, none⟩ (.ok ⟨"T", 1⟩)
          (fun p => if p = 1 then
            [(⟨42, some "Sea Wall",
              some ⟨some "image/png", "https://x/42.png"⟩⟩ : Block)] else [])
          (fun _ => .success 3)
          (initState [])).state.stats.downloaded +
        (download "ch" "out" ⟨true, false, none⟩ (.ok ⟨"T", 1⟩)
          (fun p => if p = 1 then
            [(⟨42, some "Sea Wall",
              some ⟨some "image/png", "https://x/42.png"⟩⟩ : Block)] else [])
          (fun _ => .success 3)
          (initState [])).state.stats.skipped +
        (download "ch" "out" ⟨true, false, none⟩ (.ok ⟨"T", 1⟩)
          (fun p => if p = 1 then
            [(⟨42, some "Sea Wall",
              some ⟨some "image/png", "https://x/42.png"⟩⟩ : Block)] else [])
          (fun _ => .success 3)
          (initState [])).state.stats.failed +
        (download "ch" "out" ⟨true, false, none⟩ (.ok ⟨"T", 1⟩)
          (fun p => if p = 1 then
            [(⟨42, some "Sea Wall",
              some ⟨some "image/png", "https://x/42.png"⟩⟩ : Block)] else [])
          (fun _ => .success 3)
          (initState [])).state.stats.noImage ≤
      (download "ch" "out" ⟨true, false, none⟩ (.ok ⟨"T", 1⟩)
        (fun p => if p = 1 then
          [(⟨42, some "Sea Wall",
            some ⟨some "image/png", "https://x/42.png"⟩⟩ : Block)] else [])
        (fun _ => .success 3)
        (initState [])).state.stats.total) :=
  ⟨by decide,
    ((claim_C6.2.1 "ch" "out" ⟨true, false, none⟩ ⟨"T", 1⟩
      (fun p => if p = 1 then
        [(⟨42, some "Sea Wall",
          some ⟨some "image/png", "https://x/42.png"⟩⟩ : Block)] else [])
      (fun _ => .success 3) [] (by decide)).1)⟩

/-! ### Claim C3 -/

/-- C3.  A Job whose fetch fails — a thrown request error (network, timeout,
non-2xx) or a zero-length body — bumps `failed` by one and appends a
FailureRecord with that block's id and the reason, which then appears as a
line of the failure log (the log is the newline-join of one line per
record, written when `failed > 0`).  Every job of a batch still settles
(the per-job counter sum grows by exactly the batch length), and the run's
exit status is success whenever the channel summary was fetched; the exit
status is non-zero only when the summary fetch fails, in which case the
state is returned untouched — no Job has executed. -/
theorem claim_C3 :
    (∀ (opts : Options) (net : Net) (dir : String) (b : Block) (img : Image)
        (s : DLState),
      b.image = some img →
      (opts.skipExisting && fsNonEmptyAt s.fsys (blockPath dir b)) = false →
      opts.dryRun = false →
      (∀ msg, net img.originalUrl = .failure msg →
        downloadBlock opts net dir b s =
          ({ s with
              stats := { s.stats with failed := s.stats.failed + 1 },
              failedBlocks := s.failedBlocks ++ [⟨b.id, b.title, msg⟩],
              fetchLog := s.fetchLog ++ [img.originalUrl] },
           .failed msg)) ∧
      (net img.originalUrl = .success 0 →
        downloadBlock opts net dir b s =
          ({ s with
              stats := { s.stats with failed := s.stats.failed + 1 },
              failedBlocks := s.failedBlocks ++
                [⟨b.id, b.title, "Received empty response"⟩],
              fetchLog := s.fetchLog ++ [img.originalUrl] },
           .failed "Received empty response"))) ∧
    (∀ (opts : Options) (net : Net) (dir : String) (blocks : List Block)
        (s : DLState),
      jobSum (runBlocks opts net dir blocks s).stats =
        jobSum s.stats + blocks.length) ∧
    (∀ (slug outputDir : String) (opts : Options) (info : ChannelInfo)
        (pages : Pages) (net : Net) (s : DLState),
      (download slug outputDir opts (.ok info) pages net s).exit =
        ExitStatus.success) ∧
    (∀ (slug outputDir : String) (opts : Options) (e : String)
        (pages : Pages) (net : Net) (s : DLState),
      download slug outputDir opts (.error e) pages net s =
        { state := s, exit := .failure, logWritten := none, manifest := none,
          pageTrace := [] }) ∧
    (∀ (slug outputDir : String) (opts : Options) (info : ChannelInfo)
        (pages : Pages) (net : Net) (s : DLState),
      0 < (download slug outputDir opts (.ok info) pages net
          s).state.stats.failed →
      (download slug outputDir opts (.ok info) pages net s).logWritten =
        some (String.intercalate "\n"
          ((download slug outputDir opts (.ok info) pages net
            s).state.failedBlocks.map failureLine))) := by
  refine ⟨?_, fun opts net dir blocks s => runBlocks_jobSum .., ?_, ?_, ?_⟩
  · intro opts net dir b img s himg hskip hdry
    rcases downloadBlock_spec opts net dir b s with
      ⟨hnone, _⟩ | ⟨img', himg', hcase⟩
    · rw [himg] at hnone; cases hnone
    · have himgeq : img' = img := by
        rw [himg] at himg'
        exact (Option.some.injEq _ _ ▸ himg').symm
      subst himgeq
      rcases hcase with ⟨hc, _⟩ | ⟨_, hd, _⟩ | ⟨_, _, msg, hnet, h⟩ |
        ⟨_, _, hnet, h⟩ | ⟨_, _, n, hnet, h⟩
      · rw [hskip] at hc; cases hc
      · rw [hdry] at hd; cases hd
      · constructor
        · intro msg' hnet'
          rw [hnet'] at hnet
          cases hnet
          exact h
        · intro hnet'
          rw [hnet'] at hnet
          cases hnet
      · constructor
        · intro msg' hnet'
          rw [hnet'] at hnet
          cases hnet
        · intro _
          exact h
      · constructor
        · intro msg' hnet'
          rw [hnet'] at hnet
          cases hnet
        · intro hnet'
          rw [hnet'] at hnet
          cases hnet
  · intro slug outputDir opts info pages net s
    rw [download_ok]
  · intro slug outputDir opts e pages net s
    exact download_err ..
  · intro slug outputDir opts info pages net s hfail
    rw [download_ok] at hfail ⊢
    dsimp only at hfail ⊢
    rw [if_pos hfail]
    rfl

/-- Witness for C3: in a one-item channel whose image fetch returns a
zero-length body, the job is recorded as failed with the empty-response
reason, the log holds its line, and the run exits successfully. -/
theorem claim_C3_witness :
    (downloadBlock ⟨true, false, none⟩ (fun _ => .success 0) "out/ch"
        ⟨42, some "Sea Wall", some ⟨some "image/png", "https://x/42.png"⟩⟩
        (initState []) =
      ({ initState [] with
          stats := { (initState []).stats with
            failed := (initState []).stats.failed + 1 },
          failedBlocks := (initState []).failedBlocks ++
            [⟨42, some "Sea Wall", "Received empty response"⟩],
          fetchLog := (initState []).fetchLog ++ ["https://x/42.png"] },
       .failed "Received empty response")) ∧
    ((download "ch" "out" ⟨true, false, none⟩ (.ok ⟨"T", 1⟩)
        (fun p => if p = 1 then
          [(⟨42, some "Sea Wall",
            some ⟨some "image/png", "https://x/42.png"⟩⟩ : Block)] else [])
        (fun _ => .success 0) (initState [])).exit = ExitStatus.success) ∧
    ((download "ch" "out" ⟨true, false, none⟩ (.ok ⟨"T", 1⟩)
        (fun p => if p = 1 then
          [(⟨42, some "Sea Wall",
            some ⟨some "image/png", "https://x/42.png"⟩⟩ : Block)] else [])
        (fun _ => .success 0) (initState [])).logWritten =
      some (String.intercalate "\n"
        ((download "ch" "out" ⟨true, false, none⟩ (.ok ⟨"T", 1⟩)
          (fun p => if p = 1 then
            [(⟨42, some "Sea Wall",
              some ⟨some "image/png", "https://x/42.png"⟩⟩ : Block)] else [])
          (fun _ => .success 0)
          (initState [])).state.failedBlocks.map failureLine))) :=
  ⟨(claim_C3.1 ⟨true, false, none⟩ (fun _ => .success 0) "out/ch"
      ⟨42, some "Sea Wall", some ⟨some "image/png", "https://x/42.png"⟩⟩
      ⟨some "image/png", "https://x/42.png"⟩ (initState [])
      rfl (by decide) rfl).2 rfl,
   claim_C3.2.2.1 "ch" "out" ⟨true, false, none⟩ ⟨"T", 1⟩
     (fun p => if p = 1 then
       [(⟨42, some "Sea Wall",
         some ⟨some "image/png", "https://x/42.png"⟩⟩ : Block)] else [])
     (fun _ => .success 0) (initState []),
   claim_C3.2.2.2.2 "ch" "out" ⟨true, false, none⟩ ⟨"T", 1⟩
     (fun p => if p = 1 then
       [(⟨42, some "Sea Wall",
         some ⟨some "image/png", "https://x/42.png"⟩⟩ : Block)] else [])
     (fun _ => .success 0) (initState []) (by decide)⟩

/-! ### Claim C5 -/

/-- A job resolves as skipped-for-existing exactly when it has an image and
the skip-existing test holds — independently of every other option. -/
theorem downloadBlock_skipped_iff (opts : Options) (net : Net) (dir : String)
    (b : Block) (s : DLState) :
    (downloadBlock opts net dir b s).2 = BlockResult.okSkipped "exists" ↔
      (b.image.isSome = true ∧
        (opts.skipExisting && fsNonEmptyAt s.fsys (blockPath dir b)) = true) := by
  rcases downloadBlock_spec opts net dir b s with
    ⟨hnone, heq⟩ | ⟨img, himg, hcase⟩
  · rw [heq, hnone]
    simp
  · have himgSome : b.image.isSome = true := by rw [himg]; rfl
    rcases hcase with ⟨hc, heq⟩ | ⟨hc, _, heq⟩ | ⟨hc, _, msg, _, heq⟩ |
      ⟨hc, _, _, heq⟩ | ⟨hc, _, n, _, heq⟩ <;> rw [heq] <;>
      simp [himgSome, hc]

/-- C5.  Dry-run planning and skip-existing evaluation are identical to a
normal run: a job is skipped in dry-run mode exactly when it would be in a
normal run.  For every job that would download, dry-run bumps `downloaded`
and records the block in the export list while the filesystem and the fetch
log stay untouched (no bytes fetched, nothing written).  At the run level,
with no target pre-existing, dry-run yields `downloaded` equal to the
image-block count, an unchanged filesystem, an empty fetch log, and a
manifest (when requested) listing every image block. -/
theorem claim_C5 :
    (∀ (opts : Options) (net : Net) (dir : String) (b : Block) (s : DLState),
      ((downloadBlock { opts with dryRun := true } net dir b s).2 =
          BlockResult.okSkipped "exists" ↔
        (downloadBlock { opts with dryRun := false } net dir b s).2 =
          BlockResult.okSkipped "exists")) ∧
    (∀ (opts : Options) (net : Net) (dir : String) (blocks : List Block)
        (s : DLState),
      opts.dryRun = true →
      (∀ b ∈ blocks, b.image.isSome = true) →
      (∀ b ∈ blocks, fsNonEmptyAt s.fsys (blockPath dir b) = false) →
      runBlocks opts net dir blocks s =
        { s with
            stats := { s.stats with
              downloaded := s.stats.downloaded + blocks.length },
            downloadedBlocks := s.downloadedBlocks ++ blocks }) ∧
    (∀ (slug outputDir fmt : String) (skipE : Bool) (info : ChannelInfo)
        (pages : Pages) (net : Net) (fs0 : FS),
      (∀ b ∈ imageBlocks pages info.length,
        fsNonEmptyAt fs0 (blockPath (pathJoin outputDir slug) b) = false) →
      (download slug outputDir ⟨skipE, true, some fmt⟩ (.ok info) pages net
          (initState fs0)).state.stats.downloaded =
        (imageBlocks pages info.length).length ∧
      (download slug outputDir ⟨skipE, true, some fmt⟩ (.ok info) pages net
          (initState fs0)).state.fsys = fs0 ∧
      (download slug outputDir ⟨skipE, true, some fmt⟩ (.ok info) pages net
          (initState fs0)).state.fetchLog = [] ∧
      (download slug outputDir ⟨skipE, true, some fmt⟩ (.ok info) pages net
          (initState fs0)).manifest =
        some (exportEntries (imageBlocks pages info.length))) := by
  refine ⟨fun opts net dir b s =>
    (downloadBlock_skipped_iff { opts with dryRun := true } net dir b s).trans
      (downloadBlock_skipped_iff { opts with dryRun := false }
        net dir b s).symm,
    fun opts net dir blocks s => runBlocks_dry opts net dir blocks s, ?_⟩
  intro slug outputDir fmt skipE info pages net fs0 hfs
  rw [download_ok]
  dsimp only
  rw [runState_eq]
  have himg : ∀ b ∈ imageBlocks pages info.length, b.image.isSome = true :=
    fun b hb => (List.mem_filter.mp hb).2
  have hdry := runBlocks_dry ⟨skipE, true, some fmt⟩ net
    (pathJoin outputDir slug) (imageBlocks pages info.length)
    { initState fs0 with stats :=
        { (initState fs0).stats with total := info.length } }
    rfl himg hfs
  rw [hdry]
  refine ⟨by simp [initState, initStats], rfl, rfl, ?_⟩
  dsimp only
  simp [initState]

/-- Witness for C5: a dry run over a ten-image channel with nothing
pre-existing counts all ten, fetches nothing, writes nothing, and the
manifest lists all ten. -/
theorem claim_C5_witness :
    ((download "ch" "out" ⟨true, true, some "json"⟩ (.ok ⟨"T", 10⟩)
        (fun p => if p = 1 then
          [(⟨1, none, some ⟨some "image/png", "u"⟩⟩ : Block),
           ⟨2, none, some ⟨some "image/png", "u"⟩⟩,
           ⟨3, none, some ⟨some "image/png", "u"⟩⟩,
           ⟨4, none, some ⟨some "image/png", "u"⟩⟩,
           ⟨5, none, some ⟨some "image/png", "u"⟩⟩,
           ⟨6, none, some ⟨some "image/png", "u"⟩⟩,
           ⟨7, none, some ⟨some "image/png", "u"⟩⟩,
           ⟨8, none, some ⟨some "image/png", "u"⟩⟩,
           ⟨9, none, some ⟨some "image/png", "u"⟩⟩,
           ⟨10, none, some ⟨some "image/png", "u"⟩⟩] else [])
        (fun _ => .success 3)
        (initState [])).state.stats.downloaded = 10) ∧
    ((download "ch" "out" ⟨true, true, some "json"⟩ (.ok ⟨"T", 10⟩)
        (fun p => if p = 1 then
          [(⟨1, none, some ⟨some "image/png", "u"⟩⟩ : Block),
           ⟨2, none, some ⟨some "image/png", "u"⟩⟩,
           ⟨3, none, some ⟨some "image/png", "u"⟩⟩,
           ⟨4, none, some ⟨some "image/png", "u"⟩⟩,
           ⟨5, none, some ⟨some "image/png", "u"⟩⟩,
           ⟨6, none, some ⟨some "image/png", "u"⟩⟩,
           ⟨7, none, some ⟨some "image/png", "u"⟩⟩,
           ⟨8, none, some ⟨some "image/png", "u"⟩⟩,
           ⟨9, none, some ⟨some "image/png", "u"⟩⟩,
           ⟨10, none, some ⟨some "image/png", "u"⟩⟩] else [])
        (fun _ => .success 3)
        (initState [])).state.fsys = []) ∧
    ((download "ch" "out" ⟨true, true, some "json"⟩ (.ok ⟨"T", 10⟩)
        (fun p => if p = 1 then
          [(⟨1, none, some ⟨some "image/png", "u"⟩⟩ : Block),
           ⟨2, none, some ⟨some "image/png", "u"⟩⟩,
           ⟨3, none, some ⟨some "image/png", "u"⟩⟩,
           ⟨4, none, some ⟨some "image/png", "u"⟩⟩,
           ⟨5, none, some ⟨some "image/png", "u"⟩⟩,
           ⟨6, none, some ⟨some "image/png", "u"⟩⟩,
           ⟨7, none, some ⟨some "image/png", "u"⟩⟩,
           ⟨8, none, some ⟨some "image/png", "u"⟩⟩,
           ⟨9, none, some ⟨some "image/png", "u"⟩⟩,
           ⟨10, none, some ⟨some "image/png", "u"⟩⟩] else [])
        (fun _ => .success 3)
        (initState [])).state.fetchLog = []) := by
  have h := claim_C5.2.2 "ch" "out" "json" true ⟨"T", 10⟩
    (fun p => if p = 1 then
      [(⟨1, none, some ⟨some "image/png", "u"⟩⟩ : Block),
       ⟨2, none, some ⟨some "image/png", "u"⟩⟩,
       ⟨3, none, some ⟨some "image/png", "u"⟩⟩,
       ⟨4, none, some ⟨some "image/png", "u"⟩⟩,
       ⟨5, none, some ⟨some "image/png", "u"⟩⟩,
       ⟨6, none, some ⟨some "image/png", "u"⟩⟩,
       ⟨7, none, some ⟨some "image/png", "u"⟩⟩,
       ⟨8, none, some ⟨some "image/png", "u"⟩⟩,
       ⟨9, none, some ⟨some "image/png", "u"⟩⟩,
       ⟨10, none, some ⟨some "image/png", "u"⟩⟩] else [])
    (fun _ => .success 3) [] (by decide)
  exact ⟨h.1.trans (by decide), h.2.1, h.2.2.1⟩

/-! ### Claim C7 -/

/-- C7 (failing input).  In a run over a channel whose single block has no
image, no Job is planned for it — the filesystem, fetch log, and the
`downloaded`/`skipped`/`failed` counters all stay at zero — but the
`noImage` counter also stays 0 instead of incrementing to 1: `download()`
filters imageless blocks out (`blocks.filter(b => b.image)`,
`src/index.js` line 263) before `downloadInChunks`, so the
`this.stats.noImage++` branch of `downloadBlock` (lines 157-161) is
unreachable and the "Non-images" summary line always shows 0.  The final
conjunct shows that branch itself does count the block when invoked
directly, matching the claim's (and the summary line's) evident intent. -/
theorem claim_C7 :
    ((download "ch" "out" ⟨true, false, none⟩ (.ok ⟨"T", 1⟩)
        (fun p => if p = 1 then [(⟨7, none, none⟩ : Block)] else [])
        (fun _ => .success 3) (initState [])).state.stats.noImage = 0) ∧
    ((download "ch" "out" ⟨true, false, none⟩ (.ok ⟨"T", 1⟩)
        (fun p => if p = 1 then [(⟨7, none, none⟩ : Block)] else [])
        (fun _ => .success 3) (initState [])).state.fsys = []) ∧
    ((download "ch" "out" ⟨true, false, none⟩ (.ok ⟨"T", 1⟩)
        (fun p => if p = 1 then [(⟨7, none, none⟩ : Block)] else [])
        (fun _ => .success 3) (initState [])).state.fetchLog = []) ∧
    ((download "ch" "out" ⟨true, false, none⟩ (.ok ⟨"T", 1⟩)
        (fun p => if p = 1 then [(⟨7, none, none⟩ : Block)] else [])
        (fun _ => .success 3) (initState [])).state.stats.downloaded = 0 ∧
      (download "ch" "out" ⟨true, false, none⟩ (.ok ⟨"T", 1⟩)
        (fun p => if p = 1 then [(⟨7, none, none⟩ : Block)] else [])
        (fun _ => .success 3) (initState [])).state.stats.skipped = 0 ∧
      (download "ch" "out" ⟨true, false, none⟩ (.ok ⟨"T", 1⟩)
        (fun p => if p = 1 then [(⟨7, none, none⟩ : Block)] else [])
        (fun _ => .success 3) (initState [])).state.stats.failed = 0) ∧
    ((downloadBlock ⟨true, false, none⟩ (fun _ => .success 3) "out/ch"
        ⟨7, none, none⟩ (initState [])).1.stats.noImage = 1) := by
  decide

/-! ### Claim C8 -/

/-- C8.  Running the engine twice against the same channel and output
directory with skip-existing enabled and not in dry-run, assuming no remote
content changed (same summary and page oracles) and the first run finished
with `failed = 0` (every download succeeded, necessarily with a non-empty
file: empty bodies count as failures), the second run — started from the
filesystem the first run left — downloads nothing and skips exactly the
image blocks of the run. -/
theorem claim_C8 (slug outputDir : String) (opts : Options)
    (info : ChannelInfo) (pages : Pages) (net : Net) (fs0 : FS)
    (hskip : opts.skipExisting = true) (hdry : opts.dryRun = false)
    (hfail : (download slug outputDir opts (.ok info) pages net
        (initState fs0)).state.stats.failed = 0) :
    (download slug outputDir opts (.ok info) pages net
        (initState (download slug outputDir opts (.ok info) pages net
          (initState fs0)).state.fsys)).state.stats.downloaded = 0 ∧
    (download slug outputDir opts (.ok info) pages net
        (initState (download slug outputDir opts (.ok info) pages net
          (initState fs0)).state.fsys)).state.stats.skipped =
      (imageBlocks pages info.length).length := by
  have himg : ∀ b ∈ imageBlocks pages info.length, b.image.isSome = true :=
    fun b hb => (List.mem_filter.mp hb).2
  simp only [download_ok] at hfail ⊢
  simp only [runState_eq] at hfail ⊢
  have hfail0 : (runBlocks opts net (pathJoin outputDir slug)
      (imageBlocks pages info.length)
      { initState fs0 with stats :=
          { (initState fs0).stats with total := info.length } }).stats.failed =
      ({ initState fs0 with stats :=
          { (initState fs0).stats with total := info.length } } :
        DLState).stats.failed := by
    rw [hfail]; rfl
  have hnonempty := runBlocks_no_fail_nonEmpty opts net
    (pathJoin outputDir slug) (imageBlocks pages info.length)
    { initState fs0 with stats :=
        { (initState fs0).stats with total := info.length } }
    hdry hfail0
  have hfs2 : ∀ b ∈ imageBlocks pages info.length,
      fsNonEmptyAt ({ initState (runBlocks opts net (pathJoin outputDir slug)
          (imageBlocks pages info.length)
          { initState fs0 with stats :=
              { (initState fs0).stats with total := info.length } }).fsys with
        stats := { (initState (runBlocks opts net (pathJoin outputDir slug)
          (imageBlocks pages info.length)
          { initState fs0 with stats :=
              { (initState fs0).stats with total := info.length } }).fsys).stats
            with total := info.length } } : DLState).fsys
        (blockPath (pathJoin outputDir slug) b) = true :=
    fun b hb => hnonempty b hb (himg b hb)
  have hallskip := runBlocks_all_skip opts net (pathJoin outputDir slug)
    (imageBlocks pages info.length)
    ({ initState (runBlocks opts net (pathJoin outputDir slug)
        (imageBlocks pages info.length)
        { initState fs0 with stats :=
            { (initState fs0).stats with total := info.length } }).fsys with
      stats := { (initState (runBlocks opts net (pathJoin outputDir slug)
        (imageBlocks pages info.length)
        { initState fs0 with stats :=
            { (initState fs0).stats with total := info.length } }).fsys).stats
          with total := info.length } })
    hskip himg hfs2
  rw [hallskip]
  exact ⟨rfl, by simp [initState, initStats]⟩

/-- Witness for C8: a one-image channel downloaded once is entirely skipped
on the second run. -/
theorem claim_C8_witness :
    (download "ch" "out" ⟨true, false, none⟩ (.ok ⟨"T", 1⟩)
        (fun p => if p = 1 then
          [(⟨42, some "Sea Wall",
            some ⟨some "image/png", "https://x/42.png"⟩⟩ : Block)] else [])
        (fun _ => .success 3)
        (initState (download "ch" "out" ⟨true, false, none⟩ (.ok ⟨"T", 1⟩)
          (fun p => if p = 1 then
            [(⟨42, some "Sea Wall",
              some ⟨some "image/png", "https://x/42.png"⟩⟩ : Block)] else [])
          (fun _ => .success 3)
          (initState [])).state.fsys)).state.stats.downloaded = 0 ∧
    (download "ch" "out" ⟨true, false, none⟩ (.ok ⟨"T", 1⟩)
        (fun p => if p = 1 then
          [(⟨42, some "Sea Wall",
            some ⟨some "image/png", "https://x/42.png"⟩⟩ : Block)] else [])
        (fun _ => .success 3)
        (initState (download "ch" "out" ⟨true, false, none⟩ (.ok ⟨"T", 1⟩)
          (fun p => if p = 1 then
            [(⟨42, some "Sea Wall",
              some ⟨some "image/png", "https://x/42.png"⟩⟩ : Block)] else [])
          (fun _ => .success 3)
          (initState [])).state.fsys)).state.stats.skipped =
      (imageBlocks (fun p => if p = 1 then
        [(⟨42, some "Sea Wall",
          some ⟨some "image/png", "https://x/42.png"⟩⟩ : Block)] else [])
        (1 : Nat)).length :=
  claim_C8 "ch" "out" ⟨true, false, none⟩ ⟨"T", 1⟩
    (fun p => if p = 1 then
      [(⟨42, some "Sea Wall",
        some ⟨some "image/png", "https://x/42.png"⟩⟩ : Block)] else [])
    (fun _ => .success 3) [] rfl rfl (by decide)

/-! ### Claim C10 -/

/-- Each batch leaves `total` alone and can only add to the other four
counters. -/
theorem runBlocks_counters (opts : Options) (net : Net) (dir : String)
    (blocks : List Block) (s : DLState) :
    ∃ d sk f n, (runBlocks opts net dir blocks s).stats =
      ⟨s.stats.total, s.stats.downloaded + d, s.stats.skipped + sk,
       s.stats.failed + f, s.stats.noImage + n⟩ := by
  induction blocks generalizing s with
  | nil =>
    exact ⟨0, 0, 0, 0, by rw [runBlocks_nil]; simp⟩
  | cons b t ih =>
    rw [runBlocks_cons]
    obtain ⟨d, sk, f, n, h⟩ := ih (downloadBlock opts net dir b s).1
    rcases (downloadBlock_one_counter opts net dir b s).2 with hc | hc | hc | hc <;>
      rw [hc] at h <;> dsimp only at h
    · exact ⟨d, sk, f, n + 1, by rw [h]; congr 1; omega⟩
    · exact ⟨d, sk + 1, f, n, by rw [h]; congr 1; omega⟩
    · exact ⟨d + 1, sk, f, n, by rw [h]; congr 1; omega⟩
    · exact ⟨d, sk, f + 1, n, by rw [h]; congr 1; omega⟩

/-- C10 (counterexample to the claim as stated).  `total` is not
"initialized only in the constructor and never reset by download()": every
`download()` call reassigns `this.stats.total = channelInfo.length`.  A
second call against a channel now reporting 7 items leaves `total = 7` —
neither the first run's 5 nor an accumulated 12. -/
theorem claim_C10_counterexample :
    ((download "ch" "out" ⟨true, false, none⟩ (.ok ⟨"A", 5⟩) (fun _ => [])
        (fun _ => .success 3) (initState [])).state.stats.total = 5) ∧
    ((download "ch" "out" ⟨true, false, none⟩ (.ok ⟨"A", 7⟩) (fun _ => [])
        (fun _ => .success 3)
        (download "ch" "out" ⟨true, false, none⟩ (.ok ⟨"A", 5⟩) (fun _ => [])
          (fun _ => .success 3)
          (initState [])).state).state.stats.total = 7) ∧
    ¬ ((download "ch" "out" ⟨true, false, none⟩ (.ok ⟨"A", 7⟩) (fun _ => [])
        (fun _ => .success 3)
        (download "ch" "out" ⟨true, false, none⟩ (.ok ⟨"A", 5⟩) (fun _ => [])
          (fun _ => .success 3)
          (initState [])).state).state.stats.total = 5) ∧
    ¬ ((download "ch" "out" ⟨true, false, none⟩ (.ok ⟨"A", 7⟩) (fun _ => [])
        (fun _ => .success 3)
        (download "ch" "out" ⟨true, false, none⟩ (.ok ⟨"A", 5⟩) (fun _ => [])
          (fun _ => .success 3)
          (initState [])).state).state.stats.total = 5 + 7) := by
  decide

/-- C10 (amended).  The counters `downloaded`, `skipped`, `failed`,
`noImage`, the `failedBlocks` list, and the `downloadedBlocks` list are
initialized only in the constructor and never reset by `download()`: a
second call on the same instance starts from the previous run's values and
accumulates onto them, and whenever the accumulated `failed` is positive the
failure log is rewritten with the previous runs' FailureRecords alongside
any new ones.  `total`, by contrast, is reassigned on every call to the
freshly fetched channel item count. -/
theorem claim_C10 (slug outputDir : String) (opts : Options)
    (info : ChannelInfo) (pages : Pages) (net : Net) (s : DLState) :
    ∃ d sk f n newRecords newBlocks,
      (download slug outputDir opts (.ok info) pages net s).state.stats =
        ⟨info.length, s.stats.downloaded + d, s.stats.skipped + sk,
         s.stats.failed + f, s.stats.noImage + n⟩ ∧
      (download slug outputDir opts (.ok info) pages net
          s).state.failedBlocks = s.failedBlocks ++ newRecords ∧
      (download slug outputDir opts (.ok info) pages net
          s).state.downloadedBlocks = s.downloadedBlocks ++ newBlocks ∧
      (0 < s.stats.failed + f →
        (download slug outputDir opts (.ok info) pages net s).logWritten =
          some (failedLogContent (s.failedBlocks ++ newRecords))) := by
  simp only [download_ok]
  simp only [runState_eq]
  obtain ⟨d, sk, f, n, hstats⟩ := runBlocks_counters opts net
    (pathJoin outputDir slug) (imageBlocks pages info.length)
    { s with stats := { s.stats with total := info.length } }
  obtain ⟨newRecords, hrec, _⟩ := runBlocks_failedBlocks opts net
    (pathJoin outputDir slug) (imageBlocks pages info.length)
    { s with stats := { s.stats with total := info.length } }
  obtain ⟨newBlocks, hdl, _⟩ := runBlocks_downloadedBlocks opts net
    (pathJoin outputDir slug) (imageBlocks pages info.length)
    { s with stats := { s.stats with total := info.length } }
  refine ⟨d, sk, f, n, newRecords, newBlocks, ?_, ?_, ?_, ?_⟩
  · rw [hstats]
  · rw [hrec]
  · rw [hdl]
  · intro hpos
    have hfaileq : (runBlocks opts net (pathJoin outputDir slug)
        (imageBlocks pages info.length)
        { s with stats := { s.stats with total := info.length } }).stats.failed =
        s.stats.failed + f := by
      rw [hstats]
    have hpos' : 0 < (runBlocks opts net (pathJoin outputDir slug)
        (imageBlocks pages info.length)
        { s with stats :=
            { s.stats with total := info.length } }).stats.failed := by
      rw [hfaileq]; exact hpos
    rw [if_pos hpos', hrec]

end ArenaDl
